import Mathlib

/-!
Shallow embedding of `src/SockManage.ts` (the `SockManage` class of the
sockmanage package) and proofs about its registration/deregistration
protocol, read path, and persistence behaviour.

The in-memory `Map<string, string>` of user sockets is modelled as an
association list (`SMap`) with JavaScript `Map` semantics: `mget` finds the
first binding, `mset` updates in place or appends, `mdelete` removes the
binding, and `mapFromList` rebuilds a map from a list of pairs the way
`new Map(pairs)` does (iterating the pairs in order and calling `set`).
The Redis value under the fixed `userSockets` key is modelled as optional
`Bytes`: either `good entries` (the JSON serialization of an entries list,
which decodes back to those entries) or `bad` (undecodable bytes on which
`JSON.parse` throws). Store I/O failures are modelled by two flags on the
state; the namespace connection directory is the list of live socket ids,
and each `disconnect(true)` issued on a live socket is appended to a log.
-/

/-- Association list with string keys and values, standing for the
JavaScript `Map<string, string>` held in `this.userSockets`. -/
abbrev SMap := List (String × String)

/-- JS `Map.prototype.get`: the value of the first binding of `k`, if any. -/
def mget : SMap → String → Option String
  | [], _ => none
  | (k', v) :: rest, k => if k' = k then some v else mget rest k

/-- Pointwise update used by `mset`: rewrite a binding of `k` to `(k, v)`
and leave every other binding alone. -/
def replaceEntry (k v : String) (p : String × String) : String × String :=
  if p.1 = k then (k, v) else p

/-- JS `Map.prototype.set`: replace the binding of `k` in place when present,
otherwise append a new binding at the end (JS insertion order). -/
def mset (m : SMap) (k v : String) : SMap :=
  if (mget m k).isSome then
    m.map (replaceEntry k v)
  else
    m ++ [(k, v)]

/-- JS `Map.prototype.delete`: remove the binding of `k`. -/
def mdelete : SMap → String → SMap
  | [], _ => []
  | (k', v) :: rest, k => if k' = k then mdelete rest k else (k', v) :: mdelete rest k

/-- Last-binding lookup: the value the `new Map(pairs)` constructor ends up
associating with `k`, because later pairs overwrite earlier ones. -/
def mgetLast : SMap → String → Option String
  | [], _ => none
  | (k', v') :: rest, k =>
    match mgetLast rest k with
    | some v => some v
    | none => if k' = k then some v' else none

/-- Constructor call `new Map(pairs)`: fold the pairs in order through `set`. -/
def mapFromList (l : List (String × String)) : SMap :=
  l.foldl (fun m p => mset m p.1 p.2) []

theorem replaceEntry_pos (k v k1 v1 : String) (h : k1 = k) :
    replaceEntry k v (k1, v1) = (k, v) := by
  simp [replaceEntry, h]

theorem replaceEntry_neg (k v k1 v1 : String) (h : ¬k1 = k) :
    replaceEntry k v (k1, v1) = (k1, v1) := by
  simp [replaceEntry, h]

theorem mget_map_replace (m : SMap) (k v : String) (h : (mget m k).isSome) :
    mget (m.map (replaceEntry k v)) k = some v := by
  induction m with
  | nil => simp [mget] at h
  | cons hd tl ih =>
    cases hd with
    | mk k1 v1 =>
      by_cases hk : k1 = k
      · rw [List.map_cons, replaceEntry_pos k v k1 v1 hk]
        simp [mget]
      · rw [List.map_cons, replaceEntry_neg k v k1 v1 hk]
        simp only [mget, hk, if_false] at h ⊢
        exact ih h

theorem mget_append_single (m : SMap) (k v : String) (h : mget m k = none) :
    mget (m ++ [(k, v)]) k = some v := by
  induction m with
  | nil => simp [mget]
  | cons hd tl ih =>
    cases hd with
    | mk k1 v1 =>
      by_cases hk : k1 = k
      · simp [mget, hk] at h
      · simp only [mget, hk, if_false] at h
        simp only [List.cons_append, mget, hk, if_false]
        exact ih h

theorem mget_mset_self (m : SMap) (k v : String) : mget (mset m k v) k = some v := by
  unfold mset
  split
  case isTrue h => exact mget_map_replace m k v h
  case isFalse h =>
    refine mget_append_single m k v ?_
    cases hm : mget m k with
    | none => rfl
    | some w => rw [hm] at h; simp at h

theorem mget_map_replace_ne (m : SMap) (k v k' : String) (h : k' ≠ k) :
    mget (m.map (replaceEntry k v)) k' = mget m k' := by
  induction m with
  | nil => simp [mget]
  | cons hd tl ih =>
    cases hd with
    | mk k1 v1 =>
      by_cases hk : k1 = k
      · rw [List.map_cons, replaceEntry_pos k v k1 v1 hk]
        have hne : ¬k = k' := fun hh => h hh.symm
        have hne1 : ¬k1 = k' := hk ▸ hne
        simp only [mget, hne, hne1, if_false]
        exact ih
      · rw [List.map_cons, replaceEntry_neg k v k1 v1 hk]
        by_cases hk' : k1 = k'
        · simp [mget, hk']
        · simp only [mget, hk', if_false]
          exact ih

theorem mget_append_single_ne (m : SMap) (k v k' : String) (h : k' ≠ k) :
    mget (m ++ [(k, v)]) k' = mget m k' := by
  induction m with
  | nil =>
    have hne : ¬k = k' := fun hh => h hh.symm
    simp [mget, hne]
  | cons hd tl ih =>
    cases hd with
    | mk k1 v1 =>
      simp only [List.cons_append, mget]
      by_cases hk' : k1 = k'
      · subst hk'
        simp [mget]
      · simp only [hk', if_false]
        exact ih

theorem mget_mset_ne (m : SMap) (k v k' : String) (h : k' ≠ k) :
    mget (mset m k v) k' = mget m k' := by
  unfold mset
  split
  · exact mget_map_replace_ne m k v k' h
  · exact mget_append_single_ne m k v k' h

theorem mget_mdelete_self (m : SMap) (k : String) : mget (mdelete m k) k = none := by
  induction m with
  | nil => simp [mdelete, mget]
  | cons hd tl ih =>
    cases hd with
    | mk k1 v1 =>
      by_cases hk : k1 = k
      · simpa [mdelete, hk] using ih
      · simpa [mdelete, hk, mget] using ih

theorem mget_foldl_mset (l : List (String × String)) :
    ∀ (acc : SMap) (k : String),
      mget (l.foldl (fun m p => mset m p.1 p.2) acc) k =
        match mgetLast l k with
        | some v => some v
        | none => mget acc k := by
  induction l with
  | nil => intro acc k; simp [mgetLast]
  | cons hd tl ih =>
    intro acc k
    cases hd with
    | mk k1 v1 =>
      rw [List.foldl_cons, ih (mset acc k1 v1) k]
      cases hlast : mgetLast tl k with
      | some v => simp [mgetLast, hlast]
      | none =>
        by_cases hk : k1 = k
        · subst hk
          simp [mgetLast, hlast, mget_mset_self]
        · have hne : k ≠ k1 := fun hh => hk hh.symm
          simp [mgetLast, hlast, hk, mget_mset_ne acc k1 v1 k hne]

theorem mget_mapFromList (l : List (String × String)) (k : String) :
    mget (mapFromList l) k = mgetLast l k := by
  rw [mapFromList, mget_foldl_mset l [] k]
  cases h : mgetLast l k with
  | some v => simp
  | none => simp [mget]

theorem mgetLast_append_single (m : SMap) (k v : String) :
    mgetLast (m ++ [(k, v)]) k = some v := by
  induction m with
  | nil => simp [mgetLast]
  | cons hd tl ih =>
    cases hd with
    | mk k1 v1 =>
      simp only [List.cons_append, mgetLast, List.append_eq, ih]

theorem mgetLast_map_replace_or (m : SMap) (k v : String) :
    mgetLast (m.map (replaceEntry k v)) k = none ∨
      mgetLast (m.map (replaceEntry k v)) k = some v := by
  induction m with
  | nil => left; simp [mgetLast]
  | cons hd tl ih =>
    cases hd with
    | mk k1 v1 =>
      by_cases hk : k1 = k
      · rw [List.map_cons, replaceEntry_pos k v k1 v1 hk]
        rcases ih with hnone | hsome
        · right; simp [mgetLast, hnone]
        · right; simp [mgetLast, hsome]
      · rw [List.map_cons, replaceEntry_neg k v k1 v1 hk]
        rcases ih with hnone | hsome
        · left; simp [mgetLast, hnone, hk]
        · right; simp [mgetLast, hsome]

theorem mgetLast_map_replace (m : SMap) (k v : String) (h : (mget m k).isSome) :
    mgetLast (m.map (replaceEntry k v)) k = some v := by
  induction m with
  | nil => simp [mget] at h
  | cons hd tl ih =>
    cases hd with
    | mk k1 v1 =>
      by_cases hk : k1 = k
      · rw [List.map_cons, replaceEntry_pos k v k1 v1 hk]
        rcases mgetLast_map_replace_or tl k v with hnone | hsome
        · simp [mgetLast, hnone]
        · simp [mgetLast, hsome]
      · simp only [mget, hk, if_false] at h
        rw [List.map_cons, replaceEntry_neg k v k1 v1 hk]
        simp [mgetLast, ih h]

theorem mgetLast_mset_self (m : SMap) (k v : String) :
    mgetLast (mset m k v) k = some v := by
  unfold mset
  split
  case isTrue h => exact mgetLast_map_replace m k v h
  case isFalse h => exact mgetLast_append_single m k v

theorem mget_mapFromList_mset_self (m : SMap) (k v : String) :
    mget (mapFromList (mset m k v)) k = some v := by
  rw [mget_mapFromList, mgetLast_mset_self]

/-- Serialized bytes stored under the fixed `userSockets` Redis key:
`good entries` is `JSON.stringify(Array.from(map.entries()))` of an entries
list and decodes back to it; `bad` is undecodable (on it `JSON.parse`
throws). -/
inductive Bytes where
  | good (entries : List (String × String))
  | bad
deriving DecidableEq

/-- A socket.io connection: its transport-assigned `id` plus the optional
`socket.data.userId` session metadata read by `deRegister`. -/
structure Socket where
  id : String
  dataUserId : Option String
deriving DecidableEq

/-- The state a `SockManage` instance acts on: the in-memory `userSockets`
map, the Redis value under the `userSockets` key, flags saying whether
`redis.get` / `redis.set` reject, the namespace's live-connection
directory (`namespace.sockets` key set), and the log of socket ids on
which `disconnect(true)` has been issued. -/
structure SockState where
  userSockets : SMap
  store : Option Bytes
  storeGetFails : Bool
  storeSetFails : Bool
  directory : List String
  closed : List String
deriving DecidableEq

/-- The `data` string given to `register`: either bytes on which
`JSON.parse` throws, or an object with an optional `userId` field. -/
inductive Payload where
  | malformed
  | obj (userId : Option String)
deriving DecidableEq

/-- Error message thrown by `register` when no usable userId is found. -/
def userIdRequiredMsg : String := "userId not found in data, it is required!"

/-- Error carried when `redis.get` rejects inside `initialize`, which has
no try/catch. -/
def redisGetFailedMsg : String := "redis get rejected"

/-- Error carried when `JSON.parse` throws inside `initialize`. -/
def jsonParseFailedMsg : String := "JSON parse threw"

/-- Method `extractUserId` (SockManage.ts:208-217): `JSON.parse(data)` under
try/catch returning null on throw, then `parsedData.userId || null`, which
coerces a missing or empty (falsy) userId to null. -/
def extractUserId : Payload → Option String
  | Payload.malformed => none
  | Payload.obj none => none
  | Payload.obj (some u) => if u = "" then none else some u

/-- Method `handleExistingConnection` (SockManage.ts:227-238): look up the prior
socket id for the user; when it is truthy and differs from the new
socket's id, fetch it from `namespace.sockets` and, only when present,
issue `disconnect(true)` on it. -/
def handleExistingConnection (s : SockState) (userId : String) (newSocket : Socket) :
    SockState :=
  match mget s.userSockets userId with
  | some existingSocketId =>
    if existingSocketId ≠ "" ∧ existingSocketId ≠ newSocket.id then
      if existingSocketId ∈ s.directory then
        { s with closed := s.closed ++ [existingSocketId] }
      else s
    else s
  | none => s

/-- Method `saveUserSocketsToRedis` (SockManage.ts:249-258): `redis.set` of the
serialized entries of the in-memory map, with every failure caught and
only logged. -/
def saveUserSocketsToRedis (s : SockState) : SockState :=
  if s.storeSetFails then s
  else { s with store := some (Bytes.good s.userSockets) }

/-- Method `register` (SockManage.ts:180-191): extract the userId (throwing the
validation error when absent), handle any existing connection, write the
new binding into the in-memory map, then persist to Redis. The returned
state is the instance state after the call; the `Except` is the call's
outcome. -/
def register (s : SockState) (socket : Socket) (data : Payload) :
    SockState × Except String Unit :=
  match extractUserId data with
  | none => (s, Except.error userIdRequiredMsg)
  | some userId =>
    let s1 := handleExistingConnection s userId socket
    let s2 := { s1 with userSockets := mset s1.userSockets userId socket.id }
    (saveUserSocketsToRedis s2, Except.ok ())

/-- Method `getSockets` (SockManage.ts:119-142): fetch the snapshot from Redis;
a rejected `get`, an absent value, or a `JSON.parse` throw all degrade to
null; otherwise rebuild the map with `new Map(JSON.parse(...))`. -/
def getSockets (s : SockState) : Option SMap :=
  if s.storeGetFails then none
  else
    match s.store with
    | some (Bytes.good entries) => some (mapFromList entries)
    | some Bytes.bad => none
    | none => none

/-- Method `getSocket` (SockManage.ts:158-162): `getSockets()` then
`userSockets.get(userId) || null`, which coerces the falsy empty string
to null. -/
def getSocket (s : SockState) (userId : String) : Option String :=
  match getSockets s with
  | some m =>
    match mget m userId with
    | some v => if v = "" then none else some v
    | none => none
  | none => none

/-- Method `initialize` (SockManage.ts:96-102), named here by its source alias
`initializeUserSockets`: fetch the snapshot with no try/catch (a rejected
`get` or a `JSON.parse` throw propagates) and, only when a value exists,
replace the in-memory map with `new Map(JSON.parse(...))`. -/
def initializeUserSockets (s : SockState) : Except String SockState :=
  if s.storeGetFails then Except.error redisGetFailedMsg
  else
    match s.store with
    | some (Bytes.good entries) =>
      Except.ok { s with userSockets := mapFromList entries }
    | some Bytes.bad => Except.error jsonParseFailedMsg
    | none => Except.ok s

/-- Method `deRegister` (SockManage.ts:269-276): read `socket.data?.userId`; when
it is truthy and the map still binds it to this socket's id, delete the
binding; no Redis write happens on this path. -/
def deRegister (s : SockState) (socket : Socket) : SockState :=
  match socket.dataUserId with
  | some userId =>
    if userId ≠ "" ∧ mget s.userSockets userId = some socket.id then
      { s with userSockets := mdelete s.userSockets userId }
    else s
  | none => s

/-- Concrete user id used by the concrete instantiations below. -/
def uAlice : String := "alice"

/-- Concrete socket id used by the concrete instantiations below. -/
def sid1 : String := "s1"

/-- Concrete socket id used by the concrete instantiations below. -/
def sid2 : String := "s2"

theorem handleExistingConnection_frame (s : SockState) (u : String) (c : Socket) :
    (handleExistingConnection s u c).userSockets = s.userSockets ∧
      (handleExistingConnection s u c).store = s.store ∧
      (handleExistingConnection s u c).storeGetFails = s.storeGetFails ∧
      (handleExistingConnection s u c).storeSetFails = s.storeSetFails ∧
      (handleExistingConnection s u c).directory = s.directory := by
  cases h : mget s.userSockets u with
  | none => simp [handleExistingConnection, h]
  | some e =>
    simp only [handleExistingConnection, h]
    split_ifs <;> simp

theorem handleExistingConnection_closed_close (s : SockState) (u : String) (c : Socket)
    (e : String) (hmap : mget s.userSockets u = some e) (he : e ≠ "")
    (hne : e ≠ c.id) (hdir : e ∈ s.directory) :
    (handleExistingConnection s u c).closed = s.closed ++ [e] := by
  simp only [handleExistingConnection, hmap]
  rw [if_pos ⟨he, hne⟩, if_pos hdir]

theorem handleExistingConnection_closed_skip (s : SockState) (u : String) (c : Socket)
    (e : String) (hmap : mget s.userSockets u = some e)
    (h : e ∉ s.directory ∨ e = c.id) :
    (handleExistingConnection s u c).closed = s.closed := by
  simp only [handleExistingConnection, hmap]
  rcases h with hdir | heq
  · by_cases h1 : e ≠ "" ∧ e ≠ c.id
    · rw [if_pos h1, if_neg hdir]
    · rw [if_neg h1]
  · rw [if_neg (fun hand : e ≠ "" ∧ e ≠ c.id => hand.2 heq)]

theorem handleExistingConnection_closed_absent (s : SockState) (u : String) (c : Socket)
    (hmap : mget s.userSockets u = none) :
    handleExistingConnection s u c = s := by
  simp only [handleExistingConnection, hmap]

theorem saveUserSocketsToRedis_frame (s : SockState) :
    (saveUserSocketsToRedis s).userSockets = s.userSockets ∧
      (saveUserSocketsToRedis s).storeGetFails = s.storeGetFails ∧
      (saveUserSocketsToRedis s).storeSetFails = s.storeSetFails ∧
      (saveUserSocketsToRedis s).directory = s.directory ∧
      (saveUserSocketsToRedis s).closed = s.closed := by
  unfold saveUserSocketsToRedis
  split <;> exact ⟨rfl, rfl, rfl, rfl, rfl⟩

theorem saveUserSocketsToRedis_store_ok (s : SockState) (h : s.storeSetFails = false) :
    (saveUserSocketsToRedis s).store = some (Bytes.good s.userSockets) := by
  unfold saveUserSocketsToRedis
  rw [if_neg (by simp [h])]

theorem saveUserSocketsToRedis_store_fail (s : SockState) (h : s.storeSetFails = true) :
    saveUserSocketsToRedis s = s := by
  unfold saveUserSocketsToRedis
  rw [if_pos h]

theorem register_valid_eq (s : SockState) (c : Socket) (u : String) (hu : u ≠ "") :
    register s c (Payload.obj (some u)) =
      (saveUserSocketsToRedis
        { handleExistingConnection s u c with
          userSockets := mset (handleExistingConnection s u c).userSockets u c.id },
        Except.ok ()) := by
  simp [register, extractUserId, hu]

theorem register_payload_eq (s : SockState) (c : Socket) (p : Payload) (u : String)
    (hp : extractUserId p = some u) :
    register s c p =
      (saveUserSocketsToRedis
        { handleExistingConnection s u c with
          userSockets := mset (handleExistingConnection s u c).userSockets u c.id },
        Except.ok ()) := by
  simp only [register, hp]

theorem register_valid_state (s : SockState) (c : Socket) (p : Payload) (u : String)
    (hp : extractUserId p = some u) :
    ∃ s', register s c p = (s', Except.ok ()) ∧
      s'.userSockets = mset s.userSockets u c.id ∧
      s'.storeGetFails = s.storeGetFails ∧
      s'.storeSetFails = s.storeSetFails ∧
      s'.directory = s.directory ∧
      (s.storeSetFails = false → s'.store = some (Bytes.good (mset s.userSockets u c.id))) ∧
      (s.storeSetFails = true → s'.store = s.store) := by
  have hf := handleExistingConnection_frame s u c
  refine ⟨_, register_payload_eq s c p u hp, ?_, ?_, ?_, ?_, ?_, ?_⟩
  · rw [(saveUserSocketsToRedis_frame _).1]
    show mset (handleExistingConnection s u c).userSockets u c.id = mset s.userSockets u c.id
    rw [hf.1]
  · rw [(saveUserSocketsToRedis_frame _).2.1]
    show (handleExistingConnection s u c).storeGetFails = s.storeGetFails
    exact hf.2.2.1
  · rw [(saveUserSocketsToRedis_frame _).2.2.1]
    show (handleExistingConnection s u c).storeSetFails = s.storeSetFails
    exact hf.2.2.2.1
  · rw [(saveUserSocketsToRedis_frame _).2.2.2.1]
    show (handleExistingConnection s u c).directory = s.directory
    exact hf.2.2.2.2
  · intro h
    have h2 : ({ handleExistingConnection s u c with
        userSockets := mset (handleExistingConnection s u c).userSockets u c.id } :
          SockState).storeSetFails = false := by
      show (handleExistingConnection s u c).storeSetFails = false
      rw [hf.2.2.2.1]; exact h
    rw [saveUserSocketsToRedis_store_ok _ h2]
    show some (Bytes.good (mset (handleExistingConnection s u c).userSockets u c.id)) = _
    rw [hf.1]
  · intro h
    have h2 : ({ handleExistingConnection s u c with
        userSockets := mset (handleExistingConnection s u c).userSockets u c.id } :
          SockState).storeSetFails = true := by
      show (handleExistingConnection s u c).storeSetFails = true
      rw [hf.2.2.2.1]; exact h
    rw [saveUserSocketsToRedis_store_fail _ h2]
    show (handleExistingConnection s u c).store = s.store
    exact hf.2.1

/-- Claim C1: for every user `u` previously mapped to connection id `c1id`,
registering a different connection `c2` for `u` issues `disconnect(true)`
on `c1id` exactly once (the close log grows by exactly `[c1id]`) and
afterwards the in-memory mapping for `u` is `c2.id`; when the prior id is
absent from the namespace directory or equals `c2.id`, no close is issued.
The hypotheses `u ≠ ""` and `c1id ≠ ""` say that `u` is a genuine user id
and `c1id` a genuine (truthy) connection id. -/
theorem register_supersede_forceClose_once
    (s : SockState) (c2 : Socket) (u c1id : String)
    (hmap : mget s.userSockets u = some c1id)
    (hu : u ≠ "") (hc1 : c1id ≠ "") :
    ∃ s', register s c2 (Payload.obj (some u)) = (s', Except.ok ()) ∧
      mget s'.userSockets u = some c2.id ∧
      (c1id ∈ s.directory ∧ c1id ≠ c2.id → s'.closed = s.closed ++ [c1id]) ∧
      (c1id ∉ s.directory ∨ c1id = c2.id → s'.closed = s.closed) := by
  refine ⟨_, register_valid_eq s c2 u hu, ?_, ?_, ?_⟩
  · rw [(saveUserSocketsToRedis_frame _).1]
    show mget (mset (handleExistingConnection s u c2).userSockets u c2.id) u = some c2.id
    exact mget_mset_self _ _ _
  · rintro ⟨hdir, hne⟩
    rw [(saveUserSocketsToRedis_frame _).2.2.2.2]
    show (handleExistingConnection s u c2).closed = s.closed ++ [c1id]
    exact handleExistingConnection_closed_close s u c2 c1id hmap hc1 hne hdir
  · intro h
    rw [(saveUserSocketsToRedis_frame _).2.2.2.2]
    show (handleExistingConnection s u c2).closed = s.closed
    exact handleExistingConnection_closed_skip s u c2 c1id hmap h

/-- Witness for C1: user `uAlice` holds live connection `sid1`; registering
`sid2` closes `sid1` once and maps `uAlice` to `sid2`. -/
theorem register_supersede_forceClose_once_app :
    ∃ s', register (SockState.mk [(uAlice, sid1)] none false false [sid1] [])
        (Socket.mk sid2 none) (Payload.obj (some uAlice)) = (s', Except.ok ()) ∧
      mget s'.userSockets uAlice = some sid2 ∧
      (sid1 ∈ [sid1] ∧ sid1 ≠ sid2 → s'.closed = [] ++ [sid1]) ∧
      (sid1 ∉ [sid1] ∨ sid1 = sid2 → s'.closed = []) :=
  register_supersede_forceClose_once
    (SockState.mk [(uAlice, sid1)] none false false [sid1] [])
    (Socket.mk sid2 none) uAlice sid1 (by decide) (by decide) (by decide)

/-- Claim C2: after a valid registration succeeds with the store healthy,
the store-backed `getSocket` resolves the user to the new connection's id.
The hypotheses say the payload carries userId `u`, the connection id is a
genuine (truthy) id, and neither `redis.get` nor `redis.set` fails. -/
theorem register_then_getSocket
    (s : SockState) (c : Socket) (p : Payload) (u : String)
    (hp : extractUserId p = some u) (hc : c.id ≠ "")
    (hget : s.storeGetFails = false) (hset : s.storeSetFails = false) :
    ∃ s', register s c p = (s', Except.ok ()) ∧ getSocket s' u = some c.id := by
  obtain ⟨s', hreg, hsock, hgetf, hsetf, hdir, hstoreok, hstorefail⟩ :=
    register_valid_state s c p u hp
  refine ⟨s', hreg, ?_⟩
  have hflag : s'.storeGetFails = false := hgetf.trans hget
  have hstore := hstoreok hset
  simp [getSocket, getSockets, hflag, hstore, mget_mapFromList_mset_self, hc]

/-- Witness for C2: registering `sid1` for `uAlice` on an empty healthy
state, then reading it back through the store. -/
theorem register_then_getSocket_app :
    ∃ s', register (SockState.mk [] none false false [] []) (Socket.mk sid1 none)
        (Payload.obj (some uAlice)) = (s', Except.ok ()) ∧
      getSocket s' uAlice = some sid1 :=
  register_then_getSocket (SockState.mk [] none false false [] [])
    (Socket.mk sid1 none) (Payload.obj (some uAlice)) uAlice
    (by decide) (by decide) rfl rfl

/-- Claim C5: in a superseding registration, the forced close is issued by
`handleExistingConnection`, which runs on the pre-update state: at that
moment the old binding `u ↦ c1id` is still present (and is untouched by
the close), and `register` only afterwards writes `u ↦ c2.id` and
persists, as the final equation shows. -/
theorem register_close_precedes_map_update
    (s : SockState) (c2 : Socket) (u c1id : String)
    (hmap : mget s.userSockets u = some c1id)
    (hu : u ≠ "") (hc1 : c1id ≠ "") (hne : c1id ≠ c2.id) (hdir : c1id ∈ s.directory) :
    (handleExistingConnection s u c2).closed = s.closed ++ [c1id] ∧
      (handleExistingConnection s u c2).userSockets = s.userSockets ∧
      mget (handleExistingConnection s u c2).userSockets u = some c1id ∧
      register s c2 (Payload.obj (some u)) =
        (saveUserSocketsToRedis
          { handleExistingConnection s u c2 with
            userSockets := mset (handleExistingConnection s u c2).userSockets u c2.id },
          Except.ok ()) := by
  refine ⟨handleExistingConnection_closed_close s u c2 c1id hmap hc1 hne hdir,
    (handleExistingConnection_frame s u c2).1, ?_, register_valid_eq s c2 u hu⟩
  rw [(handleExistingConnection_frame s u c2).1]
  exact hmap

/-- Witness for C5 at the concrete superseding registration. -/
theorem register_close_precedes_map_update_app :
    (handleExistingConnection (SockState.mk [(uAlice, sid1)] none false false [sid1] [])
        uAlice (Socket.mk sid2 none)).closed = [] ++ [sid1] ∧
      (handleExistingConnection (SockState.mk [(uAlice, sid1)] none false false [sid1] [])
        uAlice (Socket.mk sid2 none)).userSockets = [(uAlice, sid1)] ∧
      mget (handleExistingConnection (SockState.mk [(uAlice, sid1)] none false false [sid1] [])
        uAlice (Socket.mk sid2 none)).userSockets uAlice = some sid1 ∧
      register (SockState.mk [(uAlice, sid1)] none false false [sid1] [])
        (Socket.mk sid2 none) (Payload.obj (some uAlice)) =
        (saveUserSocketsToRedis
          { handleExistingConnection (SockState.mk [(uAlice, sid1)] none false false [sid1] [])
              uAlice (Socket.mk sid2 none) with
            userSockets := mset (handleExistingConnection
              (SockState.mk [(uAlice, sid1)] none false false [sid1] [])
              uAlice (Socket.mk sid2 none)).userSockets uAlice sid2 },
          Except.ok ()) :=
  register_close_precedes_map_update
    (SockState.mk [(uAlice, sid1)] none false false [sid1] [])
    (Socket.mk sid2 none) uAlice sid1 (by decide) (by decide) (by decide)
    (by decide) (by decide)

/-- Claim C6: when the Redis `set` fails during a valid registration, the
in-memory mapping still holds the new binding (no rollback), the persisted
snapshot is untouched, and `register` completes with success rather than
raising. -/
theorem register_persist_failure_no_rollback
    (s : SockState) (c : Socket) (p : Payload) (u : String)
    (hp : extractUserId p = some u) (hfail : s.storeSetFails = true) :
    ∃ s', register s c p = (s', Except.ok ()) ∧
      mget s'.userSockets u = some c.id ∧ s'.store = s.store := by
  obtain ⟨s', hreg, hsock, _, _, _, _, hstorefail⟩ := register_valid_state s c p u hp
  refine ⟨s', hreg, ?_, hstorefail hfail⟩
  rw [hsock]
  exact mget_mset_self _ _ _

/-- Witness for C6: the store write fails, yet registration succeeds and
the in-memory map holds the new binding while the snapshot stays stale. -/
theorem register_persist_failure_no_rollback_app :
    ∃ s', register (SockState.mk [] (some Bytes.bad) false true [] [])
        (Socket.mk sid1 none) (Payload.obj (some uAlice)) = (s', Except.ok ()) ∧
      mget s'.userSockets uAlice = some sid1 ∧ s'.store = some Bytes.bad :=
  register_persist_failure_no_rollback
    (SockState.mk [] (some Bytes.bad) false true [] [])
    (Socket.mk sid1 none) (Payload.obj (some uAlice)) uAlice (by decide) rfl

/-- The empty string, the only falsy JavaScript string value. -/
def emptyStr : String := ""

/-- Claim C3: `deRegister` (a total function — it never fails) removes the
binding of the userId carried on the socket's session metadata exactly
when the currently mapped connection id equals this socket's id, and is a
no-op on a superseded connection (current binding differs), leaving the
whole state unchanged. The hypothesis `u ≠ ""` says the session metadata
carries a genuine (truthy) user id. -/
theorem deRegister_only_if_current
    (s : SockState) (c : Socket) (u : String)
    (hu : c.dataUserId = some u) (hne : u ≠ "") :
    (mget s.userSockets u = some c.id →
        (deRegister s c).userSockets = mdelete s.userSockets u ∧
          mget (deRegister s c).userSockets u = none) ∧
      (mget s.userSockets u ≠ some c.id → deRegister s c = s) := by
  constructor
  · intro hcur
    have hdel : deRegister s c = { s with userSockets := mdelete s.userSockets u } := by
      simp only [deRegister, hu]
      rw [if_pos ⟨hne, hcur⟩]
    rw [hdel]
    exact ⟨rfl, mget_mdelete_self _ _⟩
  · intro hcur
    simp only [deRegister, hu]
    rw [if_neg (fun hand : u ≠ "" ∧ mget s.userSockets u = some c.id => hcur hand.2)]

/-- Witness for C3: deregistering the currently mapped connection on a
concrete state. -/
theorem deRegister_only_if_current_app :
    (mget [(uAlice, sid1)] uAlice = some sid1 →
        (deRegister (SockState.mk [(uAlice, sid1)] none false false [] [])
            (Socket.mk sid1 (some uAlice))).userSockets = mdelete [(uAlice, sid1)] uAlice ∧
          mget (deRegister (SockState.mk [(uAlice, sid1)] none false false [] [])
            (Socket.mk sid1 (some uAlice))).userSockets uAlice = none) ∧
      (mget [(uAlice, sid1)] uAlice ≠ some sid1 →
        deRegister (SockState.mk [(uAlice, sid1)] none false false [] [])
            (Socket.mk sid1 (some uAlice)) =
          SockState.mk [(uAlice, sid1)] none false false [] []) :=
  deRegister_only_if_current (SockState.mk [(uAlice, sid1)] none false false [] [])
    (Socket.mk sid1 (some uAlice)) uAlice rfl (by decide)

/-- Claim C4: on a payload that fails to decode, decodes without a userId
field, or carries an empty userId, `register` fails with the validation
error `"userId not found in data, it is required!"` and the state — the
in-memory mapping and the store alike — is exactly the input state. -/
theorem register_invalid_payload_no_mutation
    (s : SockState) (c : Socket) (p : Payload)
    (hp : p = Payload.malformed ∨ p = Payload.obj none ∨ p = Payload.obj (some emptyStr)) :
    register s c p = (s, Except.error userIdRequiredMsg) ∧
      userIdRequiredMsg = "userId not found in data, it is required!" := by
  refine ⟨?_, rfl⟩
  have hex : extractUserId p = none := by
    rcases hp with h | h | h <;> subst h <;> simp [extractUserId, emptyStr]
  simp only [register, hex]

/-- Witness for C4: a malformed payload leaves a concrete state unchanged
and yields the validation error. -/
theorem register_invalid_payload_no_mutation_app :
    register (SockState.mk [(uAlice, sid1)] none false false [] [])
        (Socket.mk sid2 none) Payload.malformed =
        (SockState.mk [(uAlice, sid1)] none false false [] [],
          Except.error userIdRequiredMsg) ∧
      userIdRequiredMsg = "userId not found in data, it is required!" :=
  register_invalid_payload_no_mutation
    (SockState.mk [(uAlice, sid1)] none false false [] [])
    (Socket.mk sid2 none) Payload.malformed (Or.inl rfl)

/-- Claim C7: the read operations are total functions that never raise:
when the store `get` fails or the snapshot bytes fail to decode,
`getSockets` returns null and `getSocket` returns null. -/
theorem reads_degrade_to_absent
    (s : SockState) (u : String)
    (h : s.storeGetFails = true ∨ s.store = some Bytes.bad) :
    getSockets s = none ∧ getSocket s u = none := by
  have hgs : getSockets s = none := by
    rcases h with h | h
    · simp [getSockets, h]
    · simp [getSockets, h]
  exact ⟨hgs, by simp [getSocket, hgs]⟩

/-- Witness for C7: undecodable snapshot bytes make both reads return
null on a concrete state. -/
theorem reads_degrade_to_absent_app :
    getSockets (SockState.mk [(uAlice, sid1)] (some Bytes.bad) false false [] []) = none ∧
      getSocket (SockState.mk [(uAlice, sid1)] (some Bytes.bad) false false [] [])
        uAlice = none :=
  reads_degrade_to_absent
    (SockState.mk [(uAlice, sid1)] (some Bytes.bad) false false [] []) uAlice (Or.inr rfl)

/-- Counterexample to claim C8 as stated: with a nonempty prior in-memory
mapping and no snapshot in the store, `initialize` succeeds but leaves the
prior nonempty mapping in place — it does not leave the mapping empty. -/
theorem initializeUserSockets_absent_snapshot_keeps_mapping :
    initializeUserSockets (SockState.mk [(uAlice, sid1)] none false false [] []) =
        Except.ok (SockState.mk [(uAlice, sid1)] none false false [] []) ∧
      (SockState.mk [(uAlice, sid1)] none false false [] []).userSockets ≠ [] :=
  ⟨rfl, by decide⟩

/-- Claim C8 (amended): when `redis.get` succeeds, `initialize` replaces
the in-memory mapping wholesale with the decoded snapshot when one exists,
leaves the mapping unchanged when no snapshot exists (hence empty at fresh
process start, where the mapping starts empty), and is idempotent: a
second call against the same store state returns the state of the first
call unchanged. -/
theorem initializeUserSockets_hydration
    (s : SockState) (hget : s.storeGetFails = false) :
    (∀ l, s.store = some (Bytes.good l) →
        ∃ s', initializeUserSockets s = Except.ok s' ∧
          s'.userSockets = mapFromList l ∧
          ∃ s'', initializeUserSockets s' = Except.ok s'' ∧ s'' = s') ∧
      (s.store = none → initializeUserSockets s = Except.ok s) := by
  constructor
  · intro l hstore
    refine ⟨{ s with userSockets := mapFromList l }, ?_, rfl, ?_⟩
    · simp [initializeUserSockets, hget, hstore]
    · refine ⟨{ s with userSockets := mapFromList l }, ?_, rfl⟩
      simp [initializeUserSockets, hget, hstore]
  · intro hstore
    simp [initializeUserSockets, hget, hstore]

/-- Witness for C8 (amended): hydrating from a concrete snapshot and
re-running the hydration. -/
theorem initializeUserSockets_hydration_app :
    ∃ s', initializeUserSockets
        (SockState.mk [] (some (Bytes.good [(uAlice, sid1)])) false false [] []) =
          Except.ok s' ∧
      s'.userSockets = mapFromList [(uAlice, sid1)] ∧
      ∃ s'', initializeUserSockets s' = Except.ok s'' ∧ s'' = s' :=
  (initializeUserSockets_hydration
      (SockState.mk [] (some (Bytes.good [(uAlice, sid1)])) false false [] []) rfl).1
    [(uAlice, sid1)] rfl

/-- Claim C9: `deRegister` performs no write to the store: the persisted
snapshot is the same before and after deregistration, for every state and
socket. -/
theorem deRegister_no_store_write (s : SockState) (c : Socket) :
    (deRegister s c).store = s.store := by
  unfold deRegister
  split
  · split <;> rfl
  · rfl

/-- Claim C10: when the snapshot decodes to a map whose value for `u` is
the empty string, `getSocket u` returns null, exactly as it does when `u`
has no binding at all: the `|| null` coercion makes the two
indistinguishable through the public read interface. -/
theorem getSocket_empty_value_absent
    (s : SockState) (u : String) (m : SMap)
    (h : getSockets s = some m) :
    (∀ v, mget m u = some v → v = "" → getSocket s u = none) ∧
      (mget m u = none → getSocket s u = none) := by
  constructor
  · intro v hv hveq
    subst hveq
    simp [getSocket, h, hv]
  · intro hv
    simp [getSocket, h, hv]

/-- Witness for C10: a stored snapshot mapping `uAlice` to the empty
string reads back as null. -/
theorem getSocket_empty_value_absent_app :
    (∀ v, mget (mapFromList [(uAlice, emptyStr)]) uAlice = some v → v = "" →
        getSocket (SockState.mk [] (some (Bytes.good [(uAlice, emptyStr)])) false false [] [])
          uAlice = none) ∧
      (mget (mapFromList [(uAlice, emptyStr)]) uAlice = none →
        getSocket (SockState.mk [] (some (Bytes.good [(uAlice, emptyStr)])) false false [] [])
          uAlice = none) :=
  getSocket_empty_value_absent
    (SockState.mk [] (some (Bytes.good [(uAlice, emptyStr)])) false false [] [])
    uAlice (mapFromList [(uAlice, emptyStr)]) rfl
